import Mathlib

/-!
Verification of the Claudian policy-engine / message-transformer core.

The definitions below are a shallow embedding of the TypeScript sources:
`utils` (path containment), `SecurityHooks` (vault restriction hook),
`MessageTransformer` (SDK message to stream chunk transformation) and
`InstructionRefineService` (session state, cancellation, response parsing).
String-valued record fields that the TypeScript reads with truthiness
checks conflate `undefined` with the empty string, since every use in the
source treats the two identically; genuinely nullable identifiers
(`parent_tool_use_id`, session ids) are kept as `Option String`.
-/

namespace Claudian

/-! ## POSIX path primitives (model of the Node `path` module as used by utils) -/

/-- Boolean prefix test on character lists (structural, kernel-evaluable). -/
def listLeads : List Char → List Char → Bool
  | [], _ => true
  | _ :: _, [] => false
  | a :: as, b :: bs => if a = b then listLeads as bs else false

/-- Model of the string method testing that `s` begins with `pre`. -/
def strStartsWith (s pre : String) : Bool :=
  listLeads pre.data s.data

/-- Split a character list on the path separator, keeping empty segments. -/
def splitSlash : List Char → List (List Char)
  | [] => [[]]
  | c :: rest =>
    if c = '/' then [] :: splitSlash rest
    else
      match splitSlash rest with
      | [] => [[c]]
      | s :: ss => (c :: s) :: ss

/-- One step of lexical normalization: drop empty and `.` segments, let `..`
pop the previous segment (and vanish at the root, as POSIX resolution does
for absolute paths). -/
def stepSeg (stack : List (List Char)) (seg : List Char) : List (List Char) :=
  if seg = [] ∨ seg = ['.'] then stack
  else if seg = ['.', '.'] then stack.dropLast
  else stack ++ [seg]

/-- Normalized segment list of a path. -/
def normSegs (segs : List (List Char)) : List (List Char) :=
  segs.foldl stepSeg []

/-- Rebuild a path from segments, prepending a separator to each. -/
def joinSegs (segs : List (List Char)) : List Char :=
  (segs.map (fun s => '/' :: s)).flatten

/-- Lexical normalization of an absolute POSIX path (model of what
`path.resolve` does once its argument list has been made absolute):
collapse duplicate separators, drop `.`, resolve `..`, drop any trailing
separator. -/
def normalizeAbs (p : String) : String :=
  let segs := normSegs (splitSlash p.data)
  if segs.isEmpty then "/" else String.mk (joinSegs segs)

/-- Model of `path.isAbsolute` for POSIX: the first character is `/`. -/
def isAbsolutePath (p : String) : Bool :=
  match p.data with
  | [] => false
  | c :: _ => decide (c = '/')

/-- Model of `path.resolve(p)` with one argument: absolute paths are
normalized, relative ones are resolved against the process working
directory `cwd`. -/
def resolve1 (cwd p : String) : String :=
  if isAbsolutePath p then normalizeAbs p
  else normalizeAbs (cwd ++ "/" ++ p)

/-- Model of `path.resolve(base, p)`: an absolute `p` wins, otherwise `p`
is resolved against `base`; only when `base` is itself relative does the
process working directory `cwd` enter. -/
def resolveFrom (cwd base p : String) : String :=
  if isAbsolutePath p then normalizeAbs p
  else if isAbsolutePath base then normalizeAbs (base ++ "/" ++ p)
  else normalizeAbs (cwd ++ "/" ++ base ++ "/" ++ p)

/-! ## utils: `resolveRealPath` and `isPathWithinVault`

The file system is abstracted as `fs : String → Option String`, the
partial function that `fs.realpathSync` computes: `some q` when the path
exists (with symlinks resolved to the canonical path `q`), `none` when
resolution fails. -/

/-- Embedding of `resolveRealPath`: best-effort realpath that falls back
to `path.resolve` for non-existent targets. -/
def resolveRealPath (fs : String → Option String) (cwd p : String) : String :=
  (fs p).getD (resolve1 cwd p)

/-- Embedding of the tilde expansion step of `isPathWithinVault`:
a candidate starting with `~/` is joined onto the home directory
(`path.join` of an absolute home normalizes the result). -/
def expandTilde (home c : String) : String :=
  if strStartsWith c "~/" then normalizeAbs (home ++ "/" ++ String.mk (c.data.drop 2))
  else c

/-- Embedding of the absolutization step of `isPathWithinVault`: an
absolute expanded candidate is kept, a relative one is resolved with
`path.resolve(vaultPath, expandedPath)`. -/
def absCandidateOf (cwd home c vaultPath : String) : String :=
  let e := expandTilde home c
  if isAbsolutePath e then e else resolveFrom cwd vaultPath e

/-- The canonical form the code computes for the candidate path. -/
def canonicalCandidate (fs : String → Option String) (cwd home c vaultPath : String) : String :=
  resolveRealPath fs cwd (absCandidateOf cwd home c vaultPath)

/-- The canonical form the code computes for the vault root. -/
def canonicalRoot (fs : String → Option String) (cwd vaultPath : String) : String :=
  resolveRealPath fs cwd vaultPath

/-- Embedding of `isPathWithinVault` from utils: canonicalize the root
and the candidate, then accept exactly equality or descent across a full
separator boundary. -/
def isPathWithinVault (fs : String → Option String) (cwd home c vaultPath : String) : Bool :=
  decide (canonicalCandidate fs cwd home c vaultPath = canonicalRoot fs cwd vaultPath) ||
    strStartsWith (canonicalCandidate fs cwd home c vaultPath)
      (canonicalRoot fs cwd vaultPath ++ "/")

/-- A file system in which no path exists, so every resolution takes the
lexical fallback. -/
def fsEmpty : String → Option String := fun _ => none

/-- C1 helper: the right-hand side of the claimed characterization, stated
over the canonical forms. -/
def withinSpec (fs : String → Option String) (cwd home c vaultPath : String) : Bool :=
  decide (canonicalCandidate fs cwd home c vaultPath = canonicalRoot fs cwd vaultPath) ||
    strStartsWith (canonicalCandidate fs cwd home c vaultPath) (canonicalRoot fs cwd vaultPath ++ "/")

/-! ## Security hooks (SecurityHooks source file)

The tokenizer of `BashPathValidator` and the tool tables of `toolNames` /
`toolInput` are not part of the provided sources; they are modelled from
the spec below, each with an explicit doc comment. The hook bodies
themselves follow the SecurityHooks source line by line. -/

/-- Truthiness helper: the string default operator `v || d` as used on
string fields, where the empty string stands for an absent value. -/
def strOr (v d : String) : String :=
  if v = "" then d else v

/-- Read or write intent of a path-like token found in a shell command. -/
inductive PathIntent
  | read
  | write
deriving DecidableEq

/-- A path-like token of a shell command together with its intent. -/
structure BashPathCandidate where
  path : String
  intent : PathIntent
deriving DecidableEq

/-- Kind of a containment violation. -/
inductive PathViolationType
  | outsideVault
  | exportPathRead
deriving DecidableEq

/-- A containment violation: the offending path and its kind. -/
structure PathViolation where
  type : PathViolationType
  path : String
deriving DecidableEq

/-- Context consulted by the path checks: containment in the vault and
membership in an allowed export path. -/
structure PathCheckContext where
  isPathWithinVault : String → Bool
  isAllowedExportPath : String → Bool

/-- Modelled from the spec: the per-candidate classification of
`CommandPathScanner.scan` / `findBashCommandPathViolation` (the source
file `security/BashPathValidator` is not among the provided sources). A
candidate under an ExportPath with write intent is allowed; under an
ExportPath with read intent it is an `exportPathRead` violation; a
candidate outside the Root not covered by the export exception is an
`outsideVault` violation; the first violation found short-circuits. -/
def firstViolation (ctx : PathCheckContext) : List BashPathCandidate → Option PathViolation
  | [] => none
  | c :: cs =>
    if ctx.isAllowedExportPath c.path then
      match c.intent with
      | .write => firstViolation ctx cs
      | .read => some ⟨.exportPathRead, c.path⟩
    else if ctx.isPathWithinVault c.path then firstViolation ctx cs
    else some ⟨.outsideVault, c.path⟩

/-- Modelled from the spec: `findBashCommandPathViolation`, with the
tokenization of the command string into path candidates abstracted as the
`tokenize` parameter. -/
def findBashCommandPathViolation (tokenize : String → List BashPathCandidate)
    (command : String) (ctx : PathCheckContext) : Option PathViolation :=
  firstViolation ctx (tokenize command)

/-- The shell execution tool name. -/
def TOOL_BASH : String := "Bash"

/-- Modelled from the spec: the write-capable (edit) tools, named in the
SecurityHooks source comment as Write/Edit/NotebookEdit. -/
def isEditTool (t : String) : Bool :=
  decide (t = "Write" ∨ t = "Edit" ∨ t = "NotebookEdit")

/-- Modelled from the spec: the file-affecting tools subject to the
containment hook (read, list and search tools plus the edit tools). -/
def isFileTool (t : String) : Bool :=
  isEditTool t || decide (t = "Read" ∨ t = "Glob" ∨ t = "Grep" ∨ t = "LS")

/-- The argument record of a tool call, restricted to the keys the policy
code reads; a missing or wrongly-typed key is `none`. -/
structure ToolInputRec where
  file_path : Option String := none
  path : Option String := none
  pattern : Option String := none
  command : Option String := none
deriving DecidableEq

/-- Modelled from the spec: table-driven path extraction
(`getPathFromToolInput`): the read and edit tools use `file_path`, the
list and search tools use `path` or `pattern`; tools with no file-system
argument yield `none`, and missing or wrongly-typed keys degrade to
`none` rather than fail. -/
def getPathFromToolInput (t : String) (input : ToolInputRec) : Option String :=
  if t = "Read" ∨ isEditTool t = true then input.file_path
  else if t = "Glob" ∨ t = "Grep" ∨ t = "LS" then
    match input.path with
    | some p => some p
    | none => input.pattern
  else none

/-- A policy decision: whether the tool call proceeds, with a reason on
denial (the field mirrors the `continue` flag of the hook output). -/
structure HookDecision where
  cont : Bool
  reason : Option String
deriving DecidableEq

/-- Outcome of the vault restriction hook: the decision plus whether the
`onEditBlocked` rollback callback fired. -/
structure VaultHookOutcome where
  decision : HookDecision
  editBlockedFired : Bool
deriving DecidableEq

/-- Context of the vault restriction hook. -/
structure VaultRestrictionContext where
  isPathWithinVault : String → Bool
  isAllowedExportPath : String → Bool

/-- Denial reason for a shell command path found in an export directory
with read intent. -/
def exportReadReason (p : String) : String :=
  "Access denied: Command path \"" ++ p ++
    "\" is in an allowed export directory, but export paths are write-only."

/-- Denial reason for a shell command path outside the vault. -/
def bashOutsideReason (p : String) : String :=
  "Access denied: Command path \"" ++ p ++
    "\" is outside the vault. Agent is restricted to vault directory only."

/-- Denial reason for a direct file tool path outside the vault. -/
def fileOutsideReason (p : String) : String :=
  "Access denied: Path \"" ++ p ++
    "\" is outside the vault. Agent is restricted to vault directory only."

/-- Embedding of `createVaultRestrictionHook` from SecurityHooks: shell
commands are scanned for path violations; non-file tools pass; a file
tool with an extractable path outside the vault is allowed only when it
is an edit tool writing into an allowed export path, otherwise denied
(firing the edit rollback callback for edit tools). -/
def vaultRestrictionHook (tokenize : String → List BashPathCandidate)
    (ctx : VaultRestrictionContext) (toolName : String) (toolInput : ToolInputRec) :
    VaultHookOutcome :=
  if toolName = TOOL_BASH then
    let command := (toolInput.command).getD ""
    match findBashCommandPathViolation tokenize command
        ⟨ctx.isPathWithinVault, ctx.isAllowedExportPath⟩ with
    | some v =>
      let reason :=
        if v.type = PathViolationType.exportPathRead then exportReadReason v.path
        else bashOutsideReason v.path
      ⟨⟨false, some reason⟩, false⟩
    | none => ⟨⟨true, none⟩, false⟩
  else if isFileTool toolName = false then ⟨⟨true, none⟩, false⟩
  else
    match getPathFromToolInput toolName toolInput with
    | none => ⟨⟨true, none⟩, false⟩
    | some filePath =>
      if filePath ≠ "" ∧ ctx.isPathWithinVault filePath = false then
        if isEditTool toolName = true ∧ ctx.isAllowedExportPath filePath = true then
          ⟨⟨true, none⟩, false⟩
        else
          ⟨⟨false, some (fileOutsideReason filePath)⟩, isEditTool toolName⟩
      else ⟨⟨true, none⟩, false⟩

/-- Embedding of `createVaultRestrictionHook` from the instruction refine
service: only Read, Glob and Grep are path-checked (Read through
`file_path`, the others through `path` falling back to `pattern`), and a
nonempty extracted path outside the vault is denied. -/
def refineVaultRestrictionHook (fs : String → Option String) (cwd home vaultPath : String)
    (toolName : String) (toolInput : ToolInputRec) : HookDecision :=
  if toolName = "Read" ∨ toolName = "Glob" ∨ toolName = "Grep" then
    let filePath :=
      if toolName = "Read" then (toolInput.file_path).getD ""
      else strOr ((toolInput.path).getD "") ((toolInput.pattern).getD "")
    if filePath ≠ "" ∧ isPathWithinVault fs cwd home filePath vaultPath = false then
      ⟨false, some ("Access denied: \"" ++ filePath ++ "\" is outside the vault")⟩
    else ⟨true, none⟩
  else ⟨true, none⟩

/-! ## MessageTransformer -/

/-- A tool result payload: either a string, or a non-string value carried
by its stable serialized text form (the model of `JSON.stringify` with
two-space indentation). -/
inductive SDKValue
  | str (s : String)
  | json (serialized : String)
deriving DecidableEq

/-- The text the transformer extracts from a tool result payload. -/
def stringifyValue : SDKValue → String
  | .str s => s
  | .json s => s

/-- A content block of an SDK message. String fields use the empty string
for an absent value; `unknown` stands for any unrecognized block kind. -/
inductive SDKContentBlock
  | thinking (content : String)
  | text (content : String)
  | toolUse (id : String) (name : String) (input : String)
  | toolResult (toolUseId : String) (content : SDKValue) (isError : Option Bool)
  | unknown (kind : String)
deriving DecidableEq

/-- A streaming event nested in a `stream_event` message, restricted to
the start/delta combinations the transformer recognizes. -/
inductive SDKStreamEvent
  | blockStartToolUse (id : String) (name : String) (input : String)
  | blockStartThinking (content : String)
  | blockStartText (content : String)
  | deltaThinking (content : String)
  | deltaText (content : String)
  | unknown
deriving DecidableEq

/-- An SDK message as read by the transformer. `content` is the
`message.message.content` array when present and an array, `none`
otherwise; `blocked` and `blockReason` are the denial markers of user
messages. -/
structure SDKMessage where
  type : String
  subtype : String := ""
  sessionId : String := ""
  parentToolUseId : Option String := none
  content : Option (List SDKContentBlock) := none
  toolUseResult : Option SDKValue := none
  blocked : Bool := false
  blockReason : String := ""
  event : Option SDKStreamEvent := none
  error : String := ""
deriving DecidableEq

/-- An event yielded by the transformer: the session identity signal or a
stream chunk. The blocked and error chunks carry no parent identifier,
exactly as in the source. -/
inductive TransformEvent
  | sessionInit (sessionId : String)
  | thinkingChunk (content : String) (parentToolUseId : Option String)
  | textChunk (content : String) (parentToolUseId : Option String)
  | toolUseChunk (id : String) (name : String) (input : String) (parentToolUseId : Option String)
  | blockedChunk (content : String)
  | toolResultChunk (id : String) (content : String) (isError : Bool) (parentToolUseId : Option String)
  | errorChunk (content : String)
deriving DecidableEq

/-- Embedding of `isStreamChunk`: every transformer event except the
session identity signal is a UI stream chunk. -/
def isStreamChunkEv : TransformEvent → Bool
  | .sessionInit _ => false
  | _ => true

/-- Transformation of the content blocks of an assistant message, in
array order. The synthetic tool-use id drawn when a `tool_use` block has
no id is modelled by the supplier `synth` applied to the number of
synthetic ids drawn so far (the source draws from `Date.now` and
`Math.random`). -/
def transformBlocks (synth : Nat → String) (pid : Option String) :
    Nat → List SDKContentBlock → List TransformEvent
  | _, [] => []
  | k, b :: bs =>
    match b with
    | .thinking s =>
      if s = "" then transformBlocks synth pid k bs
      else .thinkingChunk s pid :: transformBlocks synth pid k bs
    | .text s =>
      if s = "" then transformBlocks synth pid k bs
      else .textChunk s pid :: transformBlocks synth pid k bs
    | .toolUse id name input =>
      if id = "" then
        .toolUseChunk (synth k) (strOr name "unknown") (strOr input "\x7b\x7d") pid ::
          transformBlocks synth pid (k + 1) bs
      else
        .toolUseChunk id (strOr name "unknown") (strOr input "\x7b\x7d") pid ::
          transformBlocks synth pid k bs
    | .toolResult _ _ _ => transformBlocks synth pid k bs
    | .unknown _ => transformBlocks synth pid k bs

/-- Tool result chunks extracted from the content blocks of a user
message: one chunk per `tool_result` block, with the id falling back from
the block to the parent identifier to the empty string. -/
def userToolResultChunks (pid : Option String) : List SDKContentBlock → List TransformEvent
  | [] => []
  | .toolResult toolUseId content isError :: bs =>
    .toolResultChunk (strOr toolUseId (pid.getD "")) (stringifyValue content)
        (isError.getD false) pid :: userToolResultChunks pid bs
  | _ :: bs => userToolResultChunks pid bs

/-- Transformation of a user message: a denial-flagged message yields one
blocked chunk (with no parent identifier); otherwise the top-level
`tool_use_result` (when the parent identifier is truthy) and the nested
`tool_result` blocks each yield a tool result chunk. -/
def transformUser (m : SDKMessage) : List TransformEvent :=
  if m.blocked = true ∧ m.blockReason ≠ "" then [.blockedChunk m.blockReason]
  else
    (match m.toolUseResult, m.parentToolUseId with
      | some v, some p =>
        if p = "" then []
        else [.toolResultChunk p (stringifyValue v) false m.parentToolUseId]
      | _, _ => []) ++
    (match m.content with
      | some bs => userToolResultChunks m.parentToolUseId bs
      | none => [])

/-- Transformation of a streaming event. The synthetic tool-use id for a
`content_block_start` without an id is again drawn from `synth`. -/
def transformStream (synth : Nat → String) (pid : Option String) :
    Option SDKStreamEvent → List TransformEvent
  | some (.blockStartToolUse id name input) =>
    [.toolUseChunk (if id = "" then synth 0 else id) (strOr name "unknown")
      (strOr input "\x7b\x7d") pid]
  | some (.blockStartThinking s) => if s = "" then [] else [.thinkingChunk s pid]
  | some (.blockStartText s) => if s = "" then [] else [.textChunk s pid]
  | some (.deltaThinking s) => if s = "" then [] else [.thinkingChunk s pid]
  | some (.deltaText s) => if s = "" then [] else [.textChunk s pid]
  | some .unknown => []
  | none => []

/-- Embedding of `transformSDKMessage`: one SDK message expands to zero
or more transformer events, by case on the message type; unmatched
message types yield nothing. -/
def transformSDKMessage (synth : Nat → String) (m : SDKMessage) : List TransformEvent :=
  let pid := m.parentToolUseId
  if m.type = "system" then
    if m.subtype = "init" ∧ m.sessionId ≠ "" then [.sessionInit m.sessionId] else []
  else if m.type = "assistant" then
    match m.content with
    | some bs => transformBlocks synth pid 0 bs
    | none => []
  else if m.type = "user" then transformUser m
  else if m.type = "stream_event" then transformStream synth pid m.event
  else if m.type = "result" then []
  else if m.type = "error" then
    if m.error = "" then [] else [.errorChunk m.error]
  else []

/-- Erase the id of every tool-use chunk, leaving everything else of the
sequence intact (used to compare outputs up to synthetic ids). -/
def eraseToolIds (es : List TransformEvent) : List TransformEvent :=
  es.map fun e =>
    match e with
    | .toolUseChunk _ name input p => .toolUseChunk "" name input p
    | x => x

/-- A message draws no synthetic id when every `tool_use` content block
and every `tool_use` block start carries a nonempty id. -/
def noMissingToolId (m : SDKMessage) : Bool :=
  (match m.content with
    | some bs => bs.all fun b =>
        match b with
        | .toolUse id _ _ => decide (id ≠ "")
        | _ => true
    | none => true) &&
  (match m.event with
    | some (.blockStartToolUse id _ _) => decide (id ≠ "")
    | _ => true)

/-- The parent identifier a transformer event carries: `none` when the
constructor has no such field at all. -/
def parentOf : TransformEvent → Option (Option String)
  | .sessionInit _ => none
  | .thinkingChunk _ p => some p
  | .textChunk _ p => some p
  | .toolUseChunk _ _ _ p => some p
  | .blockedChunk _ => none
  | .toolResultChunk _ _ _ p => some p
  | .errorChunk _ => none

/-! ## InstructionRefineService -/

/-- The session state of the refine service: the stored session identity
and whether an abort controller for an in-flight turn exists. -/
structure RefineState where
  sessionId : Option String := none
  abortActive : Bool := false
deriving DecidableEq

/-- Embedding of `cancel`: abort and clear the controller when one
exists, otherwise do nothing. It is a total function, so it never
raises. -/
def cancel (st : RefineState) : RefineState :=
  if st.abortActive then { st with abortActive := false } else st

/-- The runtime options the service builds for a turn, restricted to the
fields the claims mention. -/
structure RefineOptions where
  cwd : String
  model : String
  resume : Option String
  maxThinkingTokens : Option Nat
deriving DecidableEq

/-- Outcome of submitting a turn: an early failure result returned before
the runtime is contacted, or the streamed runtime call with the options
it is given. -/
inductive SendOutcome
  | failedResult (error : String)
  | runtimeCall (opts : RefineOptions)
deriving DecidableEq

/-- Embedding of the option-building prefix of `sendMessage`: fail fast
when the vault path or the CLI executable is unavailable, otherwise build
the runtime options; `resume` is set exactly when a truthy session
identity is stored. -/
def sendMessageOutcome (st : RefineState) (vaultPath cliPath : Option String)
    (model : String) (thinkingTokens : Option Nat) : SendOutcome :=
  match vaultPath with
  | none => .failedResult "Could not determine vault path"
  | some vp =>
    match cliPath with
    | none => .failedResult "Claude CLI not found. Please install Claude Code CLI."
    | some _ =>
      .runtimeCall
        { cwd := vp
          model := model
          resume :=
            match st.sessionId with
            | some s => if s = "" then none else some s
            | none => none
          maxThinkingTokens :=
            match thinkingTokens with
            | some t => if t > 0 then some t else none
            | none => none }

/-- Embedding of `continueConversation`: without a truthy stored session
identity the call fails with the typed reason before anything else
happens; otherwise the message is sent as a resumed turn. -/
def continueConversation (st : RefineState) (vaultPath cliPath : Option String)
    (model : String) (thinkingTokens : Option Nat) : SendOutcome :=
  match st.sessionId with
  | none => .failedResult "No active conversation to continue"
  | some sid =>
    if sid = "" then .failedResult "No active conversation to continue"
    else sendMessageOutcome st vaultPath cliPath model thinkingTokens

/-- Embedding of the session-capture step of the streaming loop: a system
init message with a truthy session id stores that id. -/
def observeInit (st : RefineState) (m : SDKMessage) : RefineState :=
  if m.type = "system" ∧ m.subtype = "init" ∧ m.sessionId ≠ "" then
    { st with sessionId := some m.sessionId }
  else st

/-! ## Terminal response parsing (`parseResponse`) -/

/-- Split a character list at the first occurrence of a nonempty pattern,
returning the part before it and the part after it. -/
def splitFirst (pat : List Char) : List Char → Option (List Char × List Char)
  | [] => none
  | c :: rest =>
    if listLeads pat (c :: rest) then some ([], (c :: rest).drop pat.length)
    else
      match splitFirst pat rest with
      | some (pre, post) => some (c :: pre, post)
      | none => none

/-- JS whitespace as relevant here. -/
def isWs (c : Char) : Bool :=
  decide (c = ' ' ∨ c = '\n' ∨ c = '\t' ∨ c = '\r')

/-- Model of the string trim method: drop whitespace from both ends. -/
def strTrim (s : String) : String :=
  String.mk (((s.data.dropWhile isWs).reverse.dropWhile isWs).reverse)

/-- The first-match semantics of the pattern
`<instruction>([\s\S]*?)</instruction>`: the capture runs from the end of
the first opening tag to the first closing tag after it. -/
def extractTag (s : String) : Option String :=
  match splitFirst "<instruction>".data s.data with
  | none => none
  | some (_, rest) =>
    match splitFirst "</instruction>".data rest with
    | none => none
    | some (captured, _) => some (String.mk captured)

/-- Result of parsing an accumulated response text. -/
inductive ParseResult
  | refined (instruction : String)
  | clarification (question : String)
  | failure (error : String)
deriving DecidableEq

/-- Embedding of `parseResponse`: a tagged block yields its trimmed
contents as the success payload; otherwise nonempty trimmed text is a
clarification; otherwise the turn fails with the empty-response reason. -/
def parseResponse (responseText : String) : ParseResult :=
  match extractTag responseText with
  | some captured => .refined (strTrim captured)
  | none =>
    let trimmed := strTrim responseText
    if trimmed ≠ "" then .clarification trimmed
    else .failure "Empty response"

/-! ## Concrete messages used by counterexamples and witnesses -/

/-- An assistant message whose single tool-use block has no id, forcing a
synthetic id draw. -/
def mToolNoId : SDKMessage :=
  { type := "assistant", content := some [SDKContentBlock.toolUse "" "" ""] }

/-- An assistant message whose tool-use block carries an id. -/
def mToolWithId : SDKMessage :=
  { type := "assistant", content := some [SDKContentBlock.toolUse "t1" "Read" ""] }

/-- A system init message with session id `s1`. -/
def mSysInit : SDKMessage :=
  { type := "system", subtype := "init", sessionId := "s1" }

/-- An assistant message with an unknown block followed by a text block. -/
def mUnknownPlusText : SDKMessage :=
  { type := "assistant", content := some [SDKContentBlock.unknown "rate_limit", SDKContentBlock.text "hi"] }

/-- An assistant message with no content array. -/
def mAssistantNoContent : SDKMessage :=
  { type := "assistant" }

/-- A message of a type the transformer does not recognize. -/
def mMystery : SDKMessage :=
  { type := "mystery_event" }

/-- A denial-flagged user message with a nested-task identifier. -/
def mBlockedMsg : SDKMessage :=
  { type := "user", parentToolUseId := some "parent-1", blocked := true, blockReason := "denied by policy" }

/-- An assistant text message inside a nested sub-task. -/
def mTextParent : SDKMessage :=
  { type := "assistant", parentToolUseId := some "p", content := some [SDKContentBlock.text "hi"] }

/-- The claimed propagation property for one event: if the event carries
a parent field, that field equals the originating message parent id. -/
def carriesParent (pid : Option String) (e : TransformEvent) : Prop :=
  match parentOf e with
  | some p => p = pid
  | none => True

/-! ## Theorems -/

/-- C1: for every candidate and root, `isPathWithinVault` is true iff the
canonical form of the candidate equals the canonical form of the root or
extends it across a separator boundary; in particular the string prefix
`/vaultx` of root `/vault` is rejected while the descendant `/vault/x` is
accepted. -/
theorem c1_isWithin_canonical :
    (∀ (fs : String → Option String) (cwd home c vaultPath : String),
      isPathWithinVault fs cwd home c vaultPath = withinSpec fs cwd home c vaultPath) ∧
    isPathWithinVault fsEmpty "/" "/home/u" "/vaultx" "/vault" = false ∧
    isPathWithinVault fsEmpty "/" "/home/u" "/vault/x" "/vault" = true := by
  refine ⟨fun fs cwd home c vaultPath => rfl, by decide, by decide⟩

/-- C2: an edit tool whose extracted path lies outside the vault but
satisfies the export-path predicate is allowed (the single bypass of the
root); for a shell command, a candidate path in an export directory with
read intent yields the export-path-read violation and a denial whose
reason states that export paths are write-only, while the same path with
write intent is allowed. -/
theorem c2_export_path_policy :
    (∀ (tok : String → List BashPathCandidate) (ctx : VaultRestrictionContext)
        (name : String) (input : ToolInputRec) (fp : String),
      isEditTool name = true →
      getPathFromToolInput name input = some fp →
      fp ≠ "" →
      ctx.isPathWithinVault fp = false →
      ctx.isAllowedExportPath fp = true →
      (vaultRestrictionHook tok ctx name input).decision.cont = true) ∧
    (∀ (tok : String → List BashPathCandidate) (ctx : VaultRestrictionContext)
        (input : ToolInputRec) (cmd p : String),
      input.command = some cmd →
      tok cmd = [⟨p, PathIntent.read⟩] →
      ctx.isAllowedExportPath p = true →
      findBashCommandPathViolation tok cmd ⟨ctx.isPathWithinVault, ctx.isAllowedExportPath⟩ =
          some ⟨PathViolationType.exportPathRead, p⟩ ∧
        vaultRestrictionHook tok ctx TOOL_BASH input =
          ⟨⟨false, some (exportReadReason p)⟩, false⟩) ∧
    (∀ (tok : String → List BashPathCandidate) (ctx : VaultRestrictionContext)
        (input : ToolInputRec) (cmd p : String),
      input.command = some cmd →
      tok cmd = [⟨p, PathIntent.write⟩] →
      ctx.isAllowedExportPath p = true →
      (vaultRestrictionHook tok ctx TOOL_BASH input).decision.cont = true) := by
  refine ⟨?_, ?_, ?_⟩
  · intro tok ctx name input fp hedit hget hfp hwithin hexport
    have hnb : ¬ (name = TOOL_BASH) := by
      intro h
      rw [h] at hedit
      simp [isEditTool, TOOL_BASH] at hedit
    have hft : isFileTool name = true := by simp [isFileTool, hedit]
    simp [vaultRestrictionHook, hnb, hft, hget, hfp, hwithin, hedit, hexport]
  · intro tok ctx input cmd p hcmd htok hexp
    constructor
    · simp [findBashCommandPathViolation, htok, firstViolation, hexp]
    · simp [vaultRestrictionHook, findBashCommandPathViolation, hcmd, htok,
        firstViolation, hexp]
  · intro tok ctx input cmd p hcmd htok hexp
    simp [vaultRestrictionHook, findBashCommandPathViolation, hcmd, htok,
      firstViolation, hexp]

/-- C2 witness: concrete export-path scenarios for all three parts. -/
theorem c2_export_path_policy_witness :
    (vaultRestrictionHook (fun _ => []) ⟨fun _ => false, fun _ => true⟩ "Write"
        { file_path := some "/export/out.md" }).decision.cont = true ∧
    vaultRestrictionHook (fun _ => [⟨"/export/out.md", PathIntent.read⟩])
        ⟨fun _ => false, fun _ => true⟩ TOOL_BASH
        { command := some "cat /export/out.md" } =
      ⟨⟨false, some (exportReadReason "/export/out.md")⟩, false⟩ ∧
    (vaultRestrictionHook (fun _ => [⟨"/export/out.md", PathIntent.write⟩])
        ⟨fun _ => false, fun _ => true⟩ TOOL_BASH
        { command := some "echo hi > /export/out.md" }).decision.cont = true := by
  refine ⟨?_, ?_, ?_⟩
  · exact c2_export_path_policy.1 _ _ "Write" _ "/export/out.md" (by decide) rfl
      (by decide) rfl rfl
  · exact (c2_export_path_policy.2.1 _ _ _ "cat /export/out.md" "/export/out.md"
      rfl rfl rfl).2
  · exact c2_export_path_policy.2.2 _ _ _ "echo hi > /export/out.md" "/export/out.md"
      rfl rfl rfl

/-- Every lexical normalization is an absolute path. -/
theorem isAbsolute_normalizeAbs (p : String) : isAbsolutePath (normalizeAbs p) = true := by
  unfold normalizeAbs
  cases h : normSegs (splitSlash p.data) with
  | nil => simp [h]; decide
  | cons s ss => simp [h, joinSegs, isAbsolutePath]

/-- `path.resolve` of an absolute path ignores the working directory. -/
theorem resolve1_of_abs (cwd p : String) (h : isAbsolutePath p = true) :
    resolve1 cwd p = normalizeAbs p := by
  simp [resolve1, h]

/-- `resolveRealPath` of an absolute path does not depend on the working
directory. -/
theorem resolveRealPath_cwd_irrel (fs : String → Option String) (cwd cwd' p : String)
    (h : isAbsolutePath p = true) :
    resolveRealPath fs cwd p = resolveRealPath fs cwd' p := by
  unfold resolveRealPath
  cases fs p <;> simp [resolve1_of_abs _ _ h]

/-- With an absolute root, the absolutized candidate does not depend on
the working directory. -/
theorem absCandidateOf_cwd_irrel (cwd cwd' home c r : String) (h : isAbsolutePath r = true) :
    absCandidateOf cwd home c r = absCandidateOf cwd' home c r := by
  unfold absCandidateOf
  cases he : isAbsolutePath (expandTilde home c) <;> simp [he, resolveFrom, h]

/-- With an absolute root, the absolutized candidate is absolute. -/
theorem absCandidateOf_abs (cwd home c r : String) (h : isAbsolutePath r = true) :
    isAbsolutePath (absCandidateOf cwd home c r) = true := by
  unfold absCandidateOf
  cases he : isAbsolutePath (expandTilde home c) with
  | false => simp [he, resolveFrom, h, isAbsolute_normalizeAbs]
  | true => simp [he]

/-- C3: containment of a relative candidate resolves it against the root
directory, not the process working directory: with an absolute root the
verdict is independent of the working directory, the canonical form of a
relative non-tilde candidate is the resolution against the root, and with
root `/test/vault/path` the candidate `../**/*.md` escapes and is not
contained. -/
theorem c3_relative_resolved_against_root :
    (∀ (fs : String → Option String) (cwd cwd' home c r : String),
      isAbsolutePath r = true →
      isPathWithinVault fs cwd home c r = isPathWithinVault fs cwd' home c r) ∧
    (∀ (fs : String → Option String) (cwd home c r : String),
      isAbsolutePath r = true →
      isAbsolutePath c = false →
      strStartsWith c "~/" = false →
      canonicalCandidate fs cwd home c r =
        resolveRealPath fs cwd (normalizeAbs (r ++ "/" ++ c))) ∧
    isPathWithinVault fsEmpty "/elsewhere" "/home/u" "../**/*.md" "/test/vault/path" = false := by
  refine ⟨?_, ?_, by decide⟩
  · intro fs cwd cwd' home c r h
    unfold isPathWithinVault canonicalRoot canonicalCandidate
    rw [resolveRealPath_cwd_irrel fs cwd cwd' r h,
      absCandidateOf_cwd_irrel cwd cwd' home c r h,
      resolveRealPath_cwd_irrel fs cwd cwd' _ (absCandidateOf_abs cwd' home c r h)]
  · intro fs cwd home c r hr hc ht
    unfold canonicalCandidate absCandidateOf expandTilde
    simp [ht, hc, resolveFrom, hr]

/-- C3 witness: working-directory independence and root-relative
resolution at concrete inputs. -/
theorem c3_relative_resolved_witness :
    isPathWithinVault fsEmpty "/cwd1" "/home/u" "notes/a.md" "/test/vault/path" =
      isPathWithinVault fsEmpty "/cwd2" "/home/u" "notes/a.md" "/test/vault/path" ∧
    canonicalCandidate fsEmpty "/cwd1" "/home/u" "../**/*.md" "/test/vault/path" =
      resolveRealPath fsEmpty "/cwd1" (normalizeAbs ("/test/vault/path" ++ "/" ++ "../**/*.md")) := by
  exact ⟨c3_relative_resolved_against_root.1 fsEmpty "/cwd1" "/cwd2" "/home/u"
      "notes/a.md" "/test/vault/path" (by decide),
    c3_relative_resolved_against_root.2.1 fsEmpty "/cwd1" "/home/u" "../**/*.md"
      "/test/vault/path" (by decide) (by decide) (by decide)⟩

/-- C10: a file-affecting tool call whose path extraction yields nothing
or the empty string is never denied by containment: both vault
restriction hooks return a continue decision. -/
theorem c10_no_path_fail_open :
    (∀ (tok : String → List BashPathCandidate) (ctx : VaultRestrictionContext)
        (name : String) (input : ToolInputRec),
      isFileTool name = true →
      getPathFromToolInput name input = none →
      (vaultRestrictionHook tok ctx name input).decision.cont = true) ∧
    (∀ (tok : String → List BashPathCandidate) (ctx : VaultRestrictionContext)
        (name : String) (input : ToolInputRec),
      isFileTool name = true →
      getPathFromToolInput name input = some "" →
      (vaultRestrictionHook tok ctx name input).decision.cont = true) ∧
    (∀ (fs : String → Option String) (cwd home vaultPath name : String) (input : ToolInputRec),
      input.file_path.getD "" = "" →
      input.path.getD "" = "" →
      input.pattern.getD "" = "" →
      (refineVaultRestrictionHook fs cwd home vaultPath name input).cont = true) := by
  refine ⟨?_, ?_, ?_⟩
  · intro tok ctx name input hft hget
    have hnb : ¬ (name = TOOL_BASH) := by
      intro h
      rw [h] at hft
      simp [isFileTool, isEditTool, TOOL_BASH] at hft
    simp [vaultRestrictionHook, hnb, hft, hget]
  · intro tok ctx name input hft hget
    have hnb : ¬ (name = TOOL_BASH) := by
      intro h
      rw [h] at hft
      simp [isFileTool, isEditTool, TOOL_BASH] at hft
    simp [vaultRestrictionHook, hnb, hft, hget]
  · intro fs cwd home vaultPath name input h1 h2 h3
    by_cases hd : name = "Read" ∨ name = "Glob" ∨ name = "Grep"
    · by_cases hn : name = "Read" <;>
        simp [refineVaultRestrictionHook, hd, hn, h1, h2, h3, strOr]
    · simp [refineVaultRestrictionHook, hd]

/-- C10 witness: fail-open at concrete no-path tool calls. -/
theorem c10_no_path_fail_open_witness :
    (vaultRestrictionHook (fun _ => []) ⟨fun _ => false, fun _ => false⟩ "Read"
        {}).decision.cont = true ∧
    (vaultRestrictionHook (fun _ => []) ⟨fun _ => false, fun _ => false⟩ "Grep"
        { path := some "" }).decision.cont = true ∧
    (refineVaultRestrictionHook fsEmpty "/" "/home/u" "/vault" "Glob" {}).cont = true := by
  refine ⟨?_, ?_, ?_⟩
  · exact c10_no_path_fail_open.1 _ _ "Read" {} (by decide) rfl
  · exact c10_no_path_fail_open.2.1 _ _ "Grep" { path := some "" } (by decide) rfl
  · exact c10_no_path_fail_open.2.2 fsEmpty "/" "/home/u" "/vault" "Glob" {} rfl rfl rfl

/-- Block transformation is synth-independent after erasing tool ids. -/
theorem transformBlocks_erase (s1 s2 : Nat → String) (pid : Option String) :
    ∀ (bs : List SDKContentBlock) (k1 k2 : Nat),
      eraseToolIds (transformBlocks s1 pid k1 bs) =
        eraseToolIds (transformBlocks s2 pid k2 bs) := by
  intro bs
  induction bs with
  | nil => intro k1 k2; rfl
  | cons b bs ih =>
    intro k1 k2
    cases b with
    | thinking s =>
      by_cases h : s = "" <;> simp [transformBlocks, h, eraseToolIds] <;>
        simpa [eraseToolIds] using ih k1 k2
    | text s =>
      by_cases h : s = "" <;> simp [transformBlocks, h, eraseToolIds] <;>
        simpa [eraseToolIds] using ih k1 k2
    | toolUse id name input =>
      by_cases h : id = "" <;> simp [transformBlocks, h, eraseToolIds] <;>
        simpa [eraseToolIds] using ih _ _
    | toolResult a b c => simpa [transformBlocks] using ih k1 k2
    | unknown k => simpa [transformBlocks] using ih k1 k2

/-- Block transformation is synth-independent (including the unused
counter) when every tool-use block carries an id. -/
theorem transformBlocks_of_all_ids (s1 s2 : Nat → String) (pid : Option String) :
    ∀ (bs : List SDKContentBlock) (k1 k2 : Nat),
      (bs.all fun b =>
        match b with
        | .toolUse id _ _ => decide (id ≠ "")
        | _ => true) = true →
      transformBlocks s1 pid k1 bs = transformBlocks s2 pid k2 bs := by
  intro bs
  induction bs with
  | nil => intro k1 k2 _; rfl
  | cons b bs ih =>
    intro k1 k2 hall
    rw [List.all_cons, Bool.and_eq_true] at hall
    cases b with
    | thinking s => by_cases h : s = "" <;> simp [transformBlocks, h, ih k1 k2 hall.2]
    | text s => by_cases h : s = "" <;> simp [transformBlocks, h, ih k1 k2 hall.2]
    | toolUse id name input =>
      have hid : id ≠ "" := by simpa using hall.1
      simp [transformBlocks, hid, ih k1 k2 hall.2]
    | toolResult a b c => simpa [transformBlocks] using ih k1 k2 hall.2
    | unknown k => simpa [transformBlocks] using ih k1 k2 hall.2

/-- An unknown content block contributes nothing, wherever it sits. -/
theorem transformBlocks_skip_unknown (synth : Nat → String) (pid : Option String)
    (kind : String) (post : List SDKContentBlock) :
    ∀ (pre : List SDKContentBlock) (k : Nat),
      transformBlocks synth pid k (pre ++ SDKContentBlock.unknown kind :: post) =
        transformBlocks synth pid k (pre ++ post) := by
  intro pre
  induction pre with
  | nil => intro k; simp [transformBlocks]
  | cons b bs ih =>
    intro k
    cases b with
    | thinking s => by_cases h : s = "" <;> simp [transformBlocks, h, ih]
    | text s => by_cases h : s = "" <;> simp [transformBlocks, h, ih]
    | toolUse id name input => by_cases h : id = "" <;> simp [transformBlocks, h, ih]
    | toolResult a b c => simp [transformBlocks, ih]
    | unknown k2 => simp [transformBlocks, ih]

/-- C4 counterexample: two applications of the transformer to the same
message draw fresh synthetic tool-use ids (the source builds them from
`Date.now` and `Math.random`), so on a message whose tool-use block lacks
an id the two output sequences differ, refuting strict determinism. The
two explicit suppliers stand for the draws of the two applications. -/
theorem c4_determinism_counterexample :
    transformSDKMessage (fun _ => "tool-1696.abc") mToolNoId ≠
      transformSDKMessage (fun _ => "tool-1697.xyz") mToolNoId := by
  decide

/-- C4 amended: the transformer is deterministic and order-preserving up
to the synthetic ids drawn for id-less tool-use blocks: outputs of any
two applications agree after erasing tool-use ids, agree exactly when
every tool-use block carries an id, and a system message never yields a
UI stream chunk. -/
theorem c4_deterministic_up_to_synthetic_ids :
    (∀ (s1 s2 : Nat → String) (m : SDKMessage),
      eraseToolIds (transformSDKMessage s1 m) = eraseToolIds (transformSDKMessage s2 m)) ∧
    (∀ (s1 s2 : Nat → String) (m : SDKMessage),
      noMissingToolId m = true →
      transformSDKMessage s1 m = transformSDKMessage s2 m) ∧
    (∀ (synth : Nat → String) (m : SDKMessage),
      m.type = "system" →
      ∀ e ∈ transformSDKMessage synth m, isStreamChunkEv e = false) := by
  refine ⟨?_, ?_, ?_⟩
  · intro s1 s2 m
    unfold transformSDKMessage
    split_ifs <;> try rfl
    · cases m.content with
      | none => rfl
      | some bs => exact transformBlocks_erase s1 s2 m.parentToolUseId bs 0 0
    · cases m.event with
      | none => rfl
      | some ev =>
        cases ev with
        | blockStartToolUse id name input =>
          by_cases h : id = "" <;> simp [transformStream, h, eraseToolIds]
        | blockStartThinking s => rfl
        | blockStartText s => rfl
        | deltaThinking s => rfl
        | deltaText s => rfl
        | unknown => rfl
  · intro s1 s2 m hno
    unfold noMissingToolId at hno
    rw [Bool.and_eq_true] at hno
    unfold transformSDKMessage
    split_ifs <;> try rfl
    · cases hc : m.content with
      | none => rfl
      | some bs =>
        refine transformBlocks_of_all_ids s1 s2 m.parentToolUseId bs 0 0 ?_
        have := hno.1
        rw [hc] at this
        exact this
    · cases he : m.event with
      | none => rfl
      | some ev =>
        cases ev with
        | blockStartToolUse id name input =>
          have hid : id ≠ "" := by
            have := hno.2
            rw [he] at this
            simpa using this
          simp [transformStream, hid]
        | blockStartThinking s => rfl
        | blockStartText s => rfl
        | deltaThinking s => rfl
        | deltaText s => rfl
        | unknown => rfl
  · intro synth m hm e he
    unfold transformSDKMessage at he
    rw [if_pos hm] at he
    by_cases hs : m.subtype = "init" ∧ m.sessionId ≠ ""
    · rw [if_pos hs] at he
      have : e = TransformEvent.sessionInit m.sessionId := by simpa using he
      rw [this]
      rfl
    · rw [if_neg hs] at he
      simp at he

/-- C4 witness: the amended determinism at concrete inputs. -/
theorem c4_deterministic_witness :
    transformSDKMessage (fun _ => "a") mToolWithId =
      transformSDKMessage (fun _ => "b") mToolWithId ∧
    isStreamChunkEv (TransformEvent.sessionInit "s1") = false := by
  constructor
  · exact c4_deterministic_up_to_synthetic_ids.2.1 _ _ mToolWithId (by decide)
  · exact c4_deterministic_up_to_synthetic_ids.2.2 (fun _ => "a") mSysInit rfl
      (TransformEvent.sessionInit "s1") (by decide)

/-- C5: the transformer is total by construction and degrades gracefully:
an unrecognized content block kind inside an assistant message is
silently skipped (the recognized blocks around it still produce their
chunks), a missing content array yields no chunks, and an unrecognized
message type yields no chunks. -/
theorem c5_transformer_skips_malformed :
    (∀ (synth : Nat → String) (m : SDKMessage) (pre post : List SDKContentBlock)
        (kind : String),
      m.type = "assistant" →
      m.content = some (pre ++ SDKContentBlock.unknown kind :: post) →
      transformSDKMessage synth m =
        transformSDKMessage synth { m with content := some (pre ++ post) }) ∧
    (∀ (synth : Nat → String) (m : SDKMessage),
      m.type = "assistant" → m.content = none → transformSDKMessage synth m = []) ∧
    (∀ (synth : Nat → String) (m : SDKMessage),
      m.type ≠ "system" → m.type ≠ "assistant" → m.type ≠ "user" →
      m.type ≠ "stream_event" → m.type ≠ "result" → m.type ≠ "error" →
      transformSDKMessage synth m = []) := by
  refine ⟨?_, ?_, ?_⟩
  · intro synth m pre post kind hty hc
    have hty2 : ¬ (m.type = "system") := by rw [hty]; decide
    simp only [transformSDKMessage, hty, hty2, hc, if_neg, if_pos]
    simp [transformBlocks_skip_unknown]
  · intro synth m hty hc
    have hty2 : ¬ (m.type = "system") := by rw [hty]; decide
    simp [transformSDKMessage, hty, hty2, hc]
  · intro synth m h1 h2 h3 h4 h5 h6
    simp [transformSDKMessage, h1, h2, h3, h4, h5, h6]

/-- C5 witness: malformed shapes at concrete inputs. -/
theorem c5_transformer_skips_witness :
    transformSDKMessage (fun _ => "t") mUnknownPlusText =
      transformSDKMessage (fun _ => "t") { mUnknownPlusText with content := some [SDKContentBlock.text "hi"] } ∧
    transformSDKMessage (fun _ => "t") mAssistantNoContent = [] ∧
    transformSDKMessage (fun _ => "t") mMystery = [] := by
  refine ⟨?_, ?_, ?_⟩
  · exact c5_transformer_skips_malformed.1 _ mUnknownPlusText [] [SDKContentBlock.text "hi"]
      "rate_limit" rfl rfl
  · exact c5_transformer_skips_malformed.2.1 _ mAssistantNoContent rfl rfl
  · exact c5_transformer_skips_malformed.2.2 _ mMystery
      (by decide) (by decide) (by decide) (by decide) (by decide) (by decide)

/-- Every chunk produced from assistant blocks carries the captured
parent id. -/
theorem carriesParent_transformBlocks (synth : Nat → String) (pid : Option String) :
    ∀ (bs : List SDKContentBlock) (k : Nat) (e : TransformEvent),
      e ∈ transformBlocks synth pid k bs → carriesParent pid e := by
  intro bs
  induction bs with
  | nil => intro k e h; simp [transformBlocks] at h
  | cons b bs ih =>
    intro k e h
    cases b with
    | thinking s =>
      by_cases hs : s = ""
      · exact ih k e (by simpa [transformBlocks, hs] using h)
      · rcases (by simpa [transformBlocks, hs] using h :
            e = TransformEvent.thinkingChunk s pid ∨ e ∈ transformBlocks synth pid k bs) with
          he | he
        · rw [he]; trivial
        · exact ih k e he
    | text s =>
      by_cases hs : s = ""
      · exact ih k e (by simpa [transformBlocks, hs] using h)
      · rcases (by simpa [transformBlocks, hs] using h :
            e = TransformEvent.textChunk s pid ∨ e ∈ transformBlocks synth pid k bs) with
          he | he
        · rw [he]; trivial
        · exact ih k e he
    | toolUse id name input =>
      by_cases hs : id = ""
      · rcases (by simpa [transformBlocks, hs] using h :
            e = TransformEvent.toolUseChunk (synth k) (strOr name "unknown")
              (strOr input "\x7b\x7d") pid ∨
              e ∈ transformBlocks synth pid (k + 1) bs) with he | he
        · rw [he]; trivial
        · exact ih (k + 1) e he
      · rcases (by simpa [transformBlocks, hs] using h :
            e = TransformEvent.toolUseChunk id (strOr name "unknown")
              (strOr input "\x7b\x7d") pid ∨
              e ∈ transformBlocks synth pid k bs) with he | he
        · rw [he]; trivial
        · exact ih k e he
    | toolResult a b c => exact ih k e (by simpa [transformBlocks] using h)
    | unknown kk => exact ih k e (by simpa [transformBlocks] using h)

/-- Every tool result chunk produced from user content blocks carries the
captured parent id. -/
theorem carriesParent_userToolResultChunks (pid : Option String) :
    ∀ (bs : List SDKContentBlock) (e : TransformEvent),
      e ∈ userToolResultChunks pid bs → carriesParent pid e := by
  intro bs
  induction bs with
  | nil => intro e h; simp [userToolResultChunks] at h
  | cons b bs ih =>
    intro e h
    cases b with
    | toolResult toolUseId content isError =>
      rcases (by simpa [userToolResultChunks] using h :
          e = TransformEvent.toolResultChunk (strOr toolUseId (pid.getD ""))
            (stringifyValue content) (isError.getD false) pid ∨
            e ∈ userToolResultChunks pid bs) with he | he
      · rw [he]; trivial
      · exact ih e he
    | thinking s => exact ih e (by simpa [userToolResultChunks] using h)
    | text s => exact ih e (by simpa [userToolResultChunks] using h)
    | toolUse a b c => exact ih e (by simpa [userToolResultChunks] using h)
    | unknown k => exact ih e (by simpa [userToolResultChunks] using h)

/-- C9 counterexample: a denial-flagged user message with a nested-task
identifier produces a blocked chunk that carries no parent identifier at
all, refuting the claim that every non-session increment carries the
originating nested-task identifier. -/
theorem c9_parent_id_counterexample :
    ¬ (∀ e ∈ transformSDKMessage (fun _ => "t") mBlockedMsg,
        isStreamChunkEv e = true → parentOf e = some mBlockedMsg.parentToolUseId) := by
  decide

/-- C9 amended: every increment that has a parent field at all (that is,
every increment except session-identity, Blocked and Error) carries the
originating message nested-task identifier; the Blocked and Error chunks
and the session-identity signal are exactly the events without that
field. -/
theorem c9_parent_id_amended :
    (∀ (synth : Nat → String) (m : SDKMessage) (e : TransformEvent),
      e ∈ transformSDKMessage synth m → carriesParent m.parentToolUseId e) ∧
    (∀ e : TransformEvent,
      parentOf e = none ↔
        (∃ r, e = TransformEvent.blockedChunk r) ∨
          (∃ s, e = TransformEvent.errorChunk s) ∨
          (∃ sid, e = TransformEvent.sessionInit sid)) := by
  constructor
  · intro synth m e he
    obtain ⟨ty, sub, sid, pid, content, tur, blk, br, ev, err⟩ := m
    show carriesParent pid e
    simp only [transformSDKMessage] at he
    split_ifs at he with h1 h2 h3 h4 h5 h6 h7 h8
    · have : e = TransformEvent.sessionInit sid := by simpa using he
      rw [this]; trivial
    · simp at he
    · cases content with
      | none => simp at he
      | some bs => exact carriesParent_transformBlocks synth pid bs 0 e he
    · simp only [transformUser] at he
      split_ifs at he with hb
      · have : e = TransformEvent.blockedChunk br := by simpa using he
        rw [this]; trivial
      · rw [List.mem_append] at he
        rcases he with he | he
        · cases tur with
          | none => simp at he
          | some v =>
            cases pid with
            | none => simp at he
            | some p =>
              by_cases hp : p = ""
              · simp [hp] at he
              · have : e = TransformEvent.toolResultChunk p (stringifyValue v) false
                    (some p) := by simpa [hp] using he
                rw [this]; trivial
        · cases content with
          | none => simp at he
          | some bs => exact carriesParent_userToolResultChunks pid bs e he
    · cases ev with
      | none => simp [transformStream] at he
      | some ev' =>
        cases ev' with
        | blockStartToolUse id name input =>
          have : e = TransformEvent.toolUseChunk (if id = "" then synth 0 else id)
              (strOr name "unknown") (strOr input "\x7b\x7d") pid := by
            simpa [transformStream] using he
          rw [this]; trivial
        | blockStartThinking s =>
          by_cases hs : s = ""
          · simp [transformStream, hs] at he
          · have : e = TransformEvent.thinkingChunk s pid := by
              simpa [transformStream, hs] using he
            rw [this]; trivial
        | blockStartText s =>
          by_cases hs : s = ""
          · simp [transformStream, hs] at he
          · have : e = TransformEvent.textChunk s pid := by
              simpa [transformStream, hs] using he
            rw [this]; trivial
        | deltaThinking s =>
          by_cases hs : s = ""
          · simp [transformStream, hs] at he
          · have : e = TransformEvent.thinkingChunk s pid := by
              simpa [transformStream, hs] using he
            rw [this]; trivial
        | deltaText s =>
          by_cases hs : s = ""
          · simp [transformStream, hs] at he
          · have : e = TransformEvent.textChunk s pid := by
              simpa [transformStream, hs] using he
            rw [this]; trivial
        | unknown => simp [transformStream] at he
    · simp at he
    · simp at he
    · have : e = TransformEvent.errorChunk err := by simpa using he
      rw [this]; trivial
    · simp at he
  · intro e
    cases e <;> simp [parentOf]

/-- C9 witness: parent propagation at a concrete assistant message. -/
theorem c9_parent_id_witness :
    carriesParent (some "p") (TransformEvent.textChunk "hi" (some "p")) := by
  have := c9_parent_id_amended.1 (fun _ => "t") mTextParent
    (TransformEvent.textChunk "hi" (some "p")) (by decide)
  exact this

/-- A string with an empty trim consists of whitespace only. -/
theorem all_ws_of_trim_empty (s : String) (h : strTrim s = "") :
    ∀ c ∈ s.data, isWs c = true := by
  have h0 : ((s.data.dropWhile isWs).reverse.dropWhile isWs).reverse = [] := by
    have := congrArg String.data h
    simpa [strTrim] using this
  rw [List.reverse_eq_nil_iff] at h0
  have h1 : ∀ c ∈ s.data.dropWhile isWs, isWs c = true := by
    intro c hc
    have := (List.dropWhile_eq_nil_iff).mp h0 c (List.mem_reverse.mpr hc)
    exact this
  intro c hc
  rw [← List.takeWhile_append_dropWhile (p := isWs) (l := s.data)] at hc
  rcases List.mem_append.mp hc with hc | hc
  · exact List.mem_takeWhile_imp hc
  · exact h1 c hc

/-- A pattern starting with a non-whitespace character never occurs in a
whitespace-only list. -/
theorem splitFirst_ws_none (p0 : Char) (pat : List Char) (hp : isWs p0 = false) :
    ∀ l : List Char, (∀ c ∈ l, isWs c = true) → splitFirst (p0 :: pat) l = none := by
  intro l
  induction l with
  | nil => intro _; rfl
  | cons c rest ih =>
    intro hws
    have hc : isWs c = true := hws c (List.mem_cons_self c rest)
    have hne : ¬ (p0 = c) := by
      intro h
      rw [h, hc] at hp
      exact Bool.true_eq_false.mp hp
    have hlead : listLeads (p0 :: pat) (c :: rest) = false := by
      simp [listLeads, hne]
    simp [splitFirst, hlead, ih (fun x hx => hws x (List.mem_cons_of_mem c hx))]

/-- A whitespace-only response contains no instruction tag. -/
theorem extractTag_none_of_ws (s : String) (h : ∀ c ∈ s.data, isWs c = true) :
    extractTag s = none := by
  unfold extractTag
  have hpat : ("<instruction>".data) = '<' :: "instruction>".data := by decide
  rw [hpat, splitFirst_ws_none '<' "instruction>".data (by decide) s.data h]

/-- C6: terminal-response parsing is a three-way total function: a tagged
block yields success with exactly its trimmed contents, untagged nonempty
text yields a clarification equal to the trimmed text, and empty or
whitespace-only text fails with the empty-response reason. -/
theorem c6_parse_response_trichotomy :
    (∀ (s captured : String),
      extractTag s = some captured →
      parseResponse s = ParseResult.refined (strTrim captured)) ∧
    (∀ s : String,
      extractTag s = none → strTrim s ≠ "" →
      parseResponse s = ParseResult.clarification (strTrim s)) ∧
    (∀ s : String, strTrim s = "" → parseResponse s = ParseResult.failure "Empty response") ∧
    parseResponse "Here: <instruction>  - Use TypeScript.  </instruction> done" =
      ParseResult.refined "- Use TypeScript." ∧
    parseResponse "  Could you clarify?  " = ParseResult.clarification "Could you clarify?" ∧
    parseResponse " \n\t " = ParseResult.failure "Empty response" := by
  refine ⟨?_, ?_, ?_, by decide, by decide, by decide⟩
  · intro s captured h
    simp [parseResponse, h]
  · intro s h1 h2
    simp [parseResponse, h1, h2]
  · intro s h
    have hn : extractTag s = none := extractTag_none_of_ws s (all_ws_of_trim_empty s h)
    simp [parseResponse, hn, h]

/-- C6 witness: the three branches at concrete response texts. -/
theorem c6_parse_response_witness :
    parseResponse "a <instruction> X </instruction> b" = ParseResult.refined (strTrim " X ") ∧
    parseResponse "just a question" = ParseResult.clarification (strTrim "just a question") ∧
    parseResponse "  \n " = ParseResult.failure "Empty response" := by
  refine ⟨?_, ?_, ?_⟩
  · exact c6_parse_response_trichotomy.1 "a <instruction> X </instruction> b" " X " (by decide)
  · exact c6_parse_response_trichotomy.2.1 "just a question" (by decide) (by decide)
  · exact c6_parse_response_trichotomy.2.2.1 "  \n " (by decide)

/-- When the option-building prefix reaches the runtime call, the resume
field is exactly the truthy stored session identity. -/
theorem sendMessageOutcome_resume (st : RefineState) (vp cp : Option String)
    (model : String) (tt : Option Nat) (opts : RefineOptions) :
    sendMessageOutcome st vp cp model tt = SendOutcome.runtimeCall opts →
    opts.resume =
      (match st.sessionId with
        | some s => if s = "" then none else some s
        | none => none) := by
  cases vp with
  | none => intro h; simp [sendMessageOutcome] at h
  | some v =>
    cases cp with
    | none => intro h; simp [sendMessageOutcome] at h
    | some c =>
      intro h
      simp only [sendMessageOutcome, SendOutcome.runtimeCall.injEq] at h
      subst h
      rfl

/-- C7: continuing a conversation without a stored session identity fails
with the typed no-active-conversation reason before the runtime is
contacted; with a stored identity, the runtime options of the continued
turn carry resume equal to that identity. -/
theorem c7_continue_requires_session :
    (∀ (vaultPath cliPath : Option String) (model : String) (tt : Option Nat)
        (st : RefineState),
      st.sessionId = none →
      continueConversation st vaultPath cliPath model tt =
        SendOutcome.failedResult "No active conversation to continue") ∧
    (∀ (vaultPath cliPath : Option String) (model : String) (tt : Option Nat)
        (st : RefineState) (sid : String) (opts : RefineOptions),
      st.sessionId = some sid → sid ≠ "" →
      continueConversation st vaultPath cliPath model tt = SendOutcome.runtimeCall opts →
      opts.resume = some sid) := by
  constructor
  · intro vp cp model tt st h
    simp [continueConversation, h]
  · intro vp cp model tt st sid opts h1 hsid h2
    have h3 : sendMessageOutcome st vp cp model tt = SendOutcome.runtimeCall opts := by
      simpa [continueConversation, h1, hsid] using h2
    have h4 := sendMessageOutcome_resume st vp cp model tt opts h3
    rw [h4, h1]
    simp [hsid]

/-- C7 witness: the failure and the resumed-turn options at concrete
states. -/
theorem c7_continue_requires_session_witness :
    continueConversation { sessionId := none } (some "/v") (some "/c") "m" none =
      SendOutcome.failedResult "No active conversation to continue" ∧
    ({ cwd := "/v", model := "m", resume := some "s1", maxThinkingTokens := none } : RefineOptions).resume = some "s1" := by
  constructor
  · exact c7_continue_requires_session.1 (some "/v") (some "/c") "m" none
      { sessionId := none } rfl
  · exact c7_continue_requires_session.2 (some "/v") (some "/c") "m" none
      { sessionId := some "s1" } "s1"
      { cwd := "/v", model := "m", resume := some "s1", maxThinkingTokens := none }
      rfl (by decide) rfl

/-- C8: cancellation is idempotent and safe without an active turn: it is
a total function, a second consecutive call changes nothing, a call with
no abort controller is the identity, and the stored session identity is
never touched. -/
theorem c8_cancel_idempotent :
    (∀ st : RefineState, cancel (cancel st) = cancel st) ∧
    (∀ st : RefineState, st.abortActive = false → cancel st = st) ∧
    (∀ st : RefineState, (cancel (cancel st)).sessionId = st.sessionId) := by
  refine ⟨?_, ?_, ?_⟩
  · intro st
    by_cases h : st.abortActive <;> simp [cancel, h]
  · intro st h
    simp [cancel, h]
  · intro st
    by_cases h : st.abortActive <;> simp [cancel, h]

/-- C8 witness: double cancellation at concrete states. -/
theorem c8_cancel_idempotent_witness :
    cancel (cancel { sessionId := some "s", abortActive := true }) =
      cancel { sessionId := some "s", abortActive := true } ∧
    cancel { sessionId := none, abortActive := false } =
      ({ sessionId := none, abortActive := false } : RefineState) := by
  exact ⟨c8_cancel_idempotent.1 { sessionId := some "s", abortActive := true },
    c8_cancel_idempotent.2.1 { sessionId := none, abortActive := false } rfl⟩

end Claudian
